import Mathlib

/-!
Shallow embedding of the reMarkable flashcards drawing application
(src/main.rs and src/basic_draw.rs).

Conventions of the embedding:
* `f32` positions are modelled as exact rationals (`ℚ × ℚ`); every quantity
  appearing in the claims is a dyadic rational, exactly representable in
  single precision, so the rational model agrees with the `f32` computation.
* `u16` pressures are `ℕ`; the stroke buffer stores them as `ℤ`, mirroring
  the `pressure as i32` cast.
* The framebuffer and the UI-region table are external collaborators; they
  enter the model as function-valued fields of `AppCtx` (the bounding
  rectangle returned by `draw_dynamic_bezier`, and `find_active_region`).
* Handlers return `Option (state × outputs)`; `none` models an abort
  (the `unreachable!()` arm).  Rendering and refresh calls, element-handler
  activations and button actions are recorded as output events.
-/

namespace Flashcards

/-- Cartesian point, modelling `cgmath::Point2<f32>`. -/
abbrev Point : Type := ℚ × ℚ

/-- Midpoint of two points, modelling `cgmath`'s `EuclideanSpace::midpoint`. -/
def midpoint (p q : Point) : Point := ((p.1 + q.1) / 2, (p.2 + q.2) / 2)

/-- Colors used by the drawing code (`color::BLACK` / `color::WHITE`). -/
inductive Color
  | black
  | white
deriving DecidableEq, Repr

/-- Brush mode, from `enum DrawMode { Draw(u32), Erase(u32) }` in main.rs. -/
inductive DrawMode
  | Draw (width : ℕ)
  | Erase (width : ℕ)
deriving DecidableEq, Repr

/-- The `mxcfb_rect` structure (u32 fields) of libremarkable. -/
structure Rect where
  top : ℕ
  left : ℕ
  height : ℕ
  width : ℕ
deriving DecidableEq, Repr

/-- The fixed canvas region of main.rs (`CANVAS_REGION`). -/
def CANVAS_REGION : Rect := { top := 720, left := 0, height := 1080, width := 1404 }

/-- Containment test of `mxcfb_rect::contains_point`, applied in main.rs to the
`f32` position cast to an unsigned integer point (truncation; for the
nonnegative device coordinates this is the floor). -/
def contains_point (r : Rect) (p : Point) : Bool :=
  decide ((r.top : ℤ) ≤ ⌊p.2⌋ ∧ ⌊p.2⌋ < (r.top : ℤ) + r.height
    ∧ (r.left : ℤ) ≤ ⌊p.1⌋ ∧ ⌊p.1⌋ < (r.left : ℤ) + r.width)

/-- Wacom pen codes of `libremarkable::input::WacomPen`. -/
inductive WacomPen
  | ToolPen
  | ToolRubber
  | Touch
  | Stylus
  | Stylus2
deriving DecidableEq, Repr

/-- Wacom events of `libremarkable::input::WacomEvent` (tilt fields are
destructured and ignored by both handlers, so they are omitted). -/
inductive WacomEvent
  | Draw (position : Point) (pressure : ℕ)
  | InstrumentChange (pen : WacomPen) (state : Bool)
  | Hover (position : Point) (distance : ℕ)
  | Unknown
deriving DecidableEq

/-- The refresh dispatch mode (`PartialRefreshMode`). -/
inductive RefreshMode
  | Sync
  | Async
deriving DecidableEq, Repr

/-- Waveform profiles (only the one the drawing path uses is needed;
`Other` stands for the remaining table entries). -/
inductive WaveformMode
  | DU
  | Other
deriving DecidableEq, Repr

/-- Display temperature profiles. -/
inductive DisplayTemp
  | RemarkableDraw
  | Other
deriving DecidableEq, Repr

/-- Dither profiles. -/
inductive DitherMode
  | Exp1
  | Other
deriving DecidableEq, Repr

/-- The opaque external constant `DRAWING_QUANT_BIT`. -/
inductive QuantBit
  | drawingQuantBit
deriving DecidableEq, Repr

/-- Observable outputs of one handler invocation: a tapered-bezier render
call (with the bounding rectangle the framebuffer returned), a partial
refresh request, or the activation of an interactive UI element. -/
inductive Output
  | render (start ctrl stop : Point × ℚ) (subdivisions : ℕ) (col : Color) (rect : Rect)
  | refresh (rect : Rect) (mode : RefreshMode) (waveform : WaveformMode)
      (temp : DisplayTemp) (dither : DitherMode) (quant : QuantBit) (wait : Bool)
  | activate (element : ℕ)
deriving DecidableEq, Repr

/-- External collaborators of the wacom handler: the UI-region table
(`app.find_active_region`, taking the rounded y then x coordinate) and the
framebuffer's bezier renderer, abstracted as the bounding rectangle it
returns for given arguments. -/
structure AppCtx where
  find_active_region : ℤ → ℤ → Option ℕ
  draw_dynamic_bezier : (Point × ℚ) → (Point × ℚ) → (Point × ℚ) → ℕ → Color → Rect

/-- The global mutable state of main.rs: `G_DRAW_MODE`, `UNPRESS_OBSERVED`,
`WACOM_IN_RANGE`, `WACOM_RUBBER_SIDE` and the `WACOM_HISTORY` deque
(front of the list = front of the deque, i.e. the oldest sample). -/
structure AppState where
  draw_mode : DrawMode
  unpress_observed : Bool
  wacom_in_range : Bool
  wacom_rubber_side : Bool
  wacom_history : List (Point × ℤ)
deriving DecidableEq

/-- Initial values of the statics in main.rs. -/
def initialState : AppState :=
  { draw_mode := DrawMode.Draw 2
    unpress_observed := false
    wacom_in_range := false
    wacom_rubber_side := false
    wacom_history := [] }

/-- A state with one buffered sample, for concrete evaluations. -/
def stHist1 : AppState := { initialState with wacom_history := [((0, 800), 100)] }

/-- A state with a pending activation and one buffered sample, for concrete
evaluations. -/
def stPending : AppState :=
  { initialState with unpress_observed := true, wacom_history := [((0, 800), 100)] }

/-- Per-sample radius, from the `radii` map in both drain loops:
`(mult as f32 * point.1 as f32 / 2048.) / 2.0`. -/
def radius (mult : ℕ) (pressure : ℤ) : ℚ :=
  ((mult : ℚ) * (pressure : ℚ) / 2048) / 2

/-- Color/width resolution of the in-canvas Draw path of main.rs:
the `match G_DRAW_MODE` banks `(col, mult)`, then the
`WACOM_RUBBER_SIDE` override inverts the color and forces `mult = 50`. -/
def resolve_col_mult (mode : DrawMode) (rubber_side : Bool) : Color × ℕ :=
  let cm := match mode with
    | DrawMode.Draw s => (Color.black, s)
    | DrawMode.Erase s => (Color.white, s * 3)
  if rubber_side then
    (match cm.1 with
      | Color.white => Color.black
      | _ => Color.white, 50)
  else cm

/-- One iteration body of the drain loop: `points = [pop_front(), get(0), get(1)]`,
radii from the pressures, the three anchor/width pairs, the
`draw_dynamic_bezier` call and the immediately following `partial_refresh`.
`p0` is the popped (oldest) sample, `p2` the newest of the three. -/
def render_segment (ctx : AppCtx) (col : Color) (mult : ℕ)
    (p0 p1 p2 : Point × ℤ) : List Output :=
  let r0 := radius mult p0.2
  let r1 := radius mult p1.2
  let r2 := radius mult p2.2
  let start_point := midpoint p2.1 p1.1
  let ctrl_point := p1.1
  let end_point := midpoint p1.1 p0.1
  let start_width := r2 + r1
  let ctrl_width := r1 * 2
  let end_width := r1 + r0
  let rect := ctx.draw_dynamic_bezier (start_point, start_width)
    (ctrl_point, ctrl_width) (end_point, end_width) 10 col
  [Output.render (start_point, start_width) (ctrl_point, ctrl_width)
      (end_point, end_width) 10 col rect,
    Output.refresh rect RefreshMode.Async WaveformMode.DU
      DisplayTemp.RemarkableDraw DitherMode.Exp1 QuantBit.drawingQuantBit false]

/-- The `while wacom_stack.len() >= 3` drain loop: each iteration pops the
front sample and renders one segment from it and the (still stored) next
two; the loop exits as soon as fewer than three samples remain. -/
def drain_strokes (ctx : AppCtx) (col : Color) (mult : ℕ) :
    List (Point × ℤ) → List (Point × ℤ) × List Output
  | p0 :: p1 :: p2 :: rest =>
      let here := render_segment ctx col mult p0 p1 p2
      let next := drain_strokes ctx col mult (p1 :: p2 :: rest)
      (next.1, here ++ next.2)
  | stack => (stack, [])

/-- The wacom event handler `on_wacom_input` of main.rs.  `none` models the
`unreachable!()` abort on an unhandled `WacomPen` code. -/
def on_wacom_input (ctx : AppCtx) (st : AppState) (ev : WacomEvent) :
    Option (AppState × List Output) :=
  match ev with
  | WacomEvent.Draw position pressure =>
      if !(contains_point CANVAS_REGION position) then
        -- out-of-canvas: clear the stack, then consume UNPRESS_OBSERVED
        -- (fetch_and(false)) and, when it was set, invoke the handler of the
        -- active region at the rounded position, if any.
        let st1 := { st with wacom_history := [] }
        if st.unpress_observed then
          let st2 := { st1 with unpress_observed := false }
          match ctx.find_active_region (round position.2) (round position.1) with
          | some element => some (st2, [Output.activate element])
          | none => some (st2, [])
        else
          some (st1, [])
      else
        let cm := resolve_col_mult st.draw_mode st.wacom_rubber_side
        let stack := st.wacom_history ++ [(position, (pressure : ℤ))]
        let res := drain_strokes ctx cm.1 cm.2 stack
        some ({ st with wacom_history := res.1 }, res.2)
  | WacomEvent.InstrumentChange pen state =>
      match pen with
      | WacomPen.ToolPen =>
          some ({ st with wacom_in_range := state, wacom_rubber_side := false }, [])
      | WacomPen.ToolRubber =>
          some ({ st with wacom_in_range := state, wacom_rubber_side := true }, [])
      | WacomPen.Touch =>
          if !state then some ({ st with wacom_history := [] }, [])
          else some (st, [])
      | _ => none
  | WacomEvent.Hover _ distance =>
      if distance > 1 then
        some ({ st with wacom_history := [], unpress_observed := true }, [])
      else
        some (st, [])
  | WacomEvent.Unknown => some (st, [])

/-- The eraser-toggle UI handler `on_toggle_eraser` of main.rs: swaps the
mode stored in `G_DRAW_MODE`, keeping the size, and returns the color name
written into the `colorIndicator` text element. -/
def on_toggle_eraser (st : AppState) : AppState × String :=
  match st.draw_mode with
  | DrawMode.Erase s => ({ st with draw_mode := DrawMode.Draw s }, "Black")
  | DrawMode.Draw s => ({ st with draw_mode := DrawMode.Erase s }, "White")

/-- Physical buttons of `libremarkable::input::PhysicalButton`. -/
inductive PhysicalButton
  | LEFT
  | MIDDLE
  | RIGHT
  | POWER
  | WAKEUP
deriving DecidableEq, Repr

/-- GPIO events of `libremarkable::input::GPIOEvent`. -/
inductive GPIOEvent
  | Press (button : PhysicalButton)
  | Unpress (button : PhysicalButton)
  | Unknown
deriving DecidableEq, Repr

/-- The actions `on_button_press` can dispatch; their bodies live outside
the handler (UI redraw helpers, process handoff, a log line) and are
recorded as opaque labels. -/
inductive ButtonAction
  | quickRedraw
  | fullRedraw
  | toggleTouch
  | startXochitlAndExit
  | printWakeup
deriving DecidableEq, Repr

/-- The GPIO handler `on_button_press` of main.rs.  It only reads the
modelled state (the `WACOM_IN_RANGE` filter), so the state is returned
unchanged alongside the list of dispatched actions: empty on an unpress or
unknown event, empty while the pen is in range, and otherwise the single
action selected by the button. -/
def on_button_press (st : AppState) (ev : GPIOEvent) : AppState × List ButtonAction :=
  match ev with
  | GPIOEvent.Unpress _ => (st, [])
  | GPIOEvent.Unknown => (st, [])
  | GPIOEvent.Press btn =>
      if st.wacom_in_range then (st, [])
      else
        (st, [match btn with
          | PhysicalButton.LEFT => ButtonAction.quickRedraw
          | PhysicalButton.MIDDLE => ButtonAction.fullRedraw
          | PhysicalButton.RIGHT => ButtonAction.toggleTouch
          | PhysicalButton.POWER => ButtonAction.startXochitlAndExit
          | PhysicalButton.WAKEUP => ButtonAction.printWakeup])

/-- The mutable state of the basic_draw.rs entry point: the two tool flags
owned by the event-loop closure and its own `WACOM_HISTORY` deque. -/
structure BasicState where
  tool_pen : Bool
  tool_rubber : Bool
  wacom_history : List (Point × ℤ)
deriving DecidableEq

/-- Initial state of basic_draw.rs. -/
def basicInitialState : BasicState :=
  { tool_pen := false, tool_rubber := false, wacom_history := [] }

/-- The event-loop closure of basic_draw.rs `main`.  InstrumentChange only
updates the flag selected by `ToolPen`/`ToolRubber` (any other pen code is
mapped to `None` and ignored); Draw always uses `(color::BLACK, 4)`, has no
canvas check, and runs the same drain loop; every other event falls through.
This handler never aborts. -/
def basic_on_event (ctx : AppCtx) (st : BasicState) (ev : WacomEvent) :
    BasicState × List Output :=
  match ev with
  | WacomEvent.InstrumentChange pen state =>
      match pen with
      | WacomPen.ToolPen => ({ st with tool_pen := state }, [])
      | WacomPen.ToolRubber => ({ st with tool_rubber := state }, [])
      | _ => (st, [])
  | WacomEvent.Draw position pressure =>
      let cm := (Color.black, 4)
      let stack := st.wacom_history ++ [(position, (pressure : ℤ))]
      let res := drain_strokes ctx cm.1 cm.2 stack
      ({ st with wacom_history := res.1 }, res.2)
  | _ => (st, [])

/-- States reached after each completed handler invocation, starting from
`st`: the post-state of every event the handler finished without aborting
(processing stops at an abort, matching the process dying). -/
def statesAfter (ctx : AppCtx) (st : AppState) : List WacomEvent → List AppState
  | [] => []
  | ev :: evs =>
      match on_wacom_input ctx st ev with
      | some res => res.1 :: statesAfter ctx res.1 evs
      | none => []

/-- Does an output list contain a render (tapered-curve draw) call? -/
def hasRender (outs : List Output) : Bool :=
  outs.any fun o => match o with
    | Output.render _ _ _ _ _ _ => true
    | _ => false

/-- The empty bounding rectangle, reported by the test framebuffers below. -/
def rect0 : Rect := { top := 0, left := 0, height := 0, width := 0 }

/-- A trivial context for concrete evaluations: no interactive element
anywhere, and a framebuffer whose bezier renderer always reports the empty
bounding rectangle. -/
def ctx0 : AppCtx :=
  { find_active_region := fun _ _ => none
    draw_dynamic_bezier := fun _ _ _ _ _ => rect0 }

/-- A context whose whole surface is covered by interactive element `7`. -/
def ctx7 : AppCtx :=
  { find_active_region := fun _ _ => some 7
    draw_dynamic_bezier := fun _ _ _ _ _ => rect0 }

/-- A state whose stroke window already holds two in-canvas samples, with
the default brush `Draw 2`, for concrete evaluations. -/
def stTwo : AppState :=
  { initialState with wacom_history := [((0, 800), 500), ((10, 800), 1000)] }

/-- A state whose stroke window already holds two in-canvas samples with
pressures 500 and 1000, brush `Draw 4`, matching the concrete scenario of
the specification (pressures `[500, 1000, 1500]`, multiplier 4). -/
def stTwo4 : AppState :=
  { initialState with
    draw_mode := DrawMode.Draw 4
    wacom_history := [((0, 800), 500), ((10, 800), 1000)] }

/-- The refresh-dispatch discipline over an output list: every render call
is immediately followed by exactly one partial refresh scoped to the very
bounding rectangle that render returned, in asynchronous mode with the
two-tone (DU) waveform and without awaiting completion; and every refresh
in the list arises this way (no batching, no stray refreshes). -/
def refresh_follows_render (outs : List Output) : Prop :=
  (∀ (i : ℕ) (s c e : Point × ℚ) (n : ℕ) (col : Color) (rect : Rect),
      outs[i]? = some (Output.render s c e n col rect) →
      outs[i+1]? = some (Output.refresh rect RefreshMode.Async WaveformMode.DU
        DisplayTemp.RemarkableDraw DitherMode.Exp1 QuantBit.drawingQuantBit false))
  ∧ (∀ (j : ℕ) (rect : Rect) (m : RefreshMode) (w : WaveformMode) (t : DisplayTemp)
        (d : DitherMode) (q : QuantBit) (wait : Bool),
      outs[j]? = some (Output.refresh rect m w t d q wait) →
      m = RefreshMode.Async ∧ w = WaveformMode.DU ∧ wait = false
      ∧ ∃ (i : ℕ) (s c e : Point × ℚ) (n : ℕ) (col : Color),
          j = i + 1 ∧ outs[i]? = some (Output.render s c e n col rect))

/-! ## Helper lemmas about the drain loop -/

/-- A stack holding fewer than three samples is returned untouched and
renders nothing. -/
lemma drain_strokes_short (ctx : AppCtx) (col : Color) (mult : ℕ)
    (stack : List (Point × ℤ)) (h : stack.length < 3) :
    drain_strokes ctx col mult stack = (stack, []) := by
  match stack with
  | [] => rfl
  | [_] => rfl
  | [_, _] => rfl
  | _ :: _ :: _ :: _ => exact absurd h (by simp)

/-- The drain loop leaves `min (length) 2` samples in the stack. -/
lemma drain_strokes_fst_length (ctx : AppCtx) (col : Color) (mult : ℕ) :
    ∀ stack : List (Point × ℤ),
      (drain_strokes ctx col mult stack).1.length = min stack.length 2 := by
  intro stack
  induction stack with
  | nil => simp [drain_strokes]
  | cons p0 tail ih =>
      match tail with
      | [] => simp [drain_strokes]
      | [_] => simp [drain_strokes]
      | p1 :: p2 :: rest =>
          simp only [drain_strokes] at ih ⊢
          simpa using ih

/-- Every render the drain loop emits is filled with the active color. -/
lemma drain_strokes_render_col (ctx : AppCtx) (col : Color) (mult : ℕ) :
    ∀ (stack : List (Point × ℤ)) (s c e : Point × ℚ) (n : ℕ) (col' : Color) (r : Rect),
      Output.render s c e n col' r ∈ (drain_strokes ctx col mult stack).2 → col' = col := by
  intro stack
  induction stack with
  | nil => simp [drain_strokes]
  | cons p0 tail ih =>
      match tail with
      | [] => simp [drain_strokes]
      | [_] => simp [drain_strokes]
      | p1 :: p2 :: rest =>
          intro s c e n col' r hmem
          simp only [drain_strokes, render_segment, List.cons_append, List.nil_append,
            List.mem_cons] at hmem
          rcases hmem with h | h | h
          · injection h with h1 h2 h3 h4 h5 h6
          · cases h
          · exact ih s c e n col' r h

/-- A render is emitted only when the stack holds at least three samples. -/
lemma drain_strokes_hasRender (ctx : AppCtx) (col : Color) (mult : ℕ)
    (stack : List (Point × ℤ))
    (h : hasRender (drain_strokes ctx col mult stack).2 = true) :
    3 ≤ stack.length := by
  by_contra hlt
  push_neg at hlt
  rw [drain_strokes_short ctx col mult stack hlt] at h
  simp [hasRender] at h

/-! ## Claim theorems -/

/-- Unfolding of the in-canvas Draw branch of `on_wacom_input`. -/
lemma on_wacom_input_draw_in (ctx : AppCtx) (st : AppState) (pos : Point) (press : ℕ)
    (hc : contains_point CANVAS_REGION pos = true) :
    on_wacom_input ctx st (WacomEvent.Draw pos press) =
      some ({ st with wacom_history :=
          (drain_strokes ctx (resolve_col_mult st.draw_mode st.wacom_rubber_side).1
            (resolve_col_mult st.draw_mode st.wacom_rubber_side).2
            (st.wacom_history ++ [(pos, (press : ℤ))])).1 },
        (drain_strokes ctx (resolve_col_mult st.draw_mode st.wacom_rubber_side).1
          (resolve_col_mult st.draw_mode st.wacom_rubber_side).2
          (st.wacom_history ++ [(pos, (press : ℤ))])).2) := by
  simp [on_wacom_input, hc]

/-- Unfolding of the out-of-canvas Draw branch of `on_wacom_input`. -/
lemma on_wacom_input_draw_out (ctx : AppCtx) (st : AppState) (pos : Point) (press : ℕ)
    (hc : contains_point CANVAS_REGION pos = false) :
    on_wacom_input ctx st (WacomEvent.Draw pos press) =
      if st.unpress_observed then
        match ctx.find_active_region (round pos.2) (round pos.1) with
        | some element =>
            some ({ st with wacom_history := [], unpress_observed := false },
              [Output.activate element])
        | none =>
            some ({ st with wacom_history := [], unpress_observed := false }, [])
      else some ({ st with wacom_history := [] }, []) := by
  by_cases hu : st.unpress_observed
  · rcases hfind : ctx.find_active_region (round pos.2) (round pos.1) with _ | el <;>
      simp [on_wacom_input, hc, hu, hfind]
  · simp [on_wacom_input, hc, hu]

/-- An out-of-canvas Draw always leaves an empty stroke buffer. -/
lemma draw_out_clears (ctx : AppCtx) (st : AppState) (pos : Point) (press : ℕ)
    (st' : AppState) (outs : List Output)
    (hc : contains_point CANVAS_REGION pos = false)
    (h : on_wacom_input ctx st (WacomEvent.Draw pos press) = some (st', outs)) :
    st'.wacom_history = [] := by
  rw [on_wacom_input_draw_out ctx st pos press hc] at h
  by_cases hu : st.unpress_observed
  · rw [if_pos hu] at h
    rcases hfind : ctx.find_active_region (round pos.2) (round pos.1) with _ | el <;>
        rw [hfind] at h <;> injection h with h <;> injection h with hst houts <;>
        rw [← hst]
  · rw [if_neg hu] at h
    injection h with h
    injection h with hst houts
    rw [← hst]

/-- An out-of-canvas Draw emits no render call. -/
lemma draw_out_no_render (ctx : AppCtx) (st : AppState) (pos : Point) (press : ℕ)
    (st' : AppState) (outs : List Output)
    (hc : contains_point CANVAS_REGION pos = false)
    (h : on_wacom_input ctx st (WacomEvent.Draw pos press) = some (st', outs)) :
    hasRender outs = false := by
  rw [on_wacom_input_draw_out ctx st pos press hc] at h
  by_cases hu : st.unpress_observed
  · rw [if_pos hu] at h
    rcases hfind : ctx.find_active_region (round pos.2) (round pos.1) with _ | el <;>
        rw [hfind] at h <;> injection h with h <;> injection h with hst houts <;>
        subst houts <;> rfl
  · rw [if_neg hu] at h
    injection h with h
    injection h with hst houts
    subst houts
    rfl

/-- Every event other than Draw produces an empty output list (when it does
not abort). -/
lemma non_draw_outs_nil (ctx : AppCtx) (st : AppState) (ev : WacomEvent)
    (st' : AppState) (outs : List Output)
    (h : on_wacom_input ctx st ev = some (st', outs))
    (hne : ∀ pos press, ev ≠ WacomEvent.Draw pos press) : outs = [] := by
  cases ev with
  | Draw pos press => exact absurd rfl (hne pos press)
  | InstrumentChange pen state =>
      cases pen <;> cases state <;> simp only [on_wacom_input] at h <;>
        first
          | (injection h with h; injection h with hst houts; exact houts.symm)
          | simp at h
  | Hover pos dist =>
      simp only [on_wacom_input] at h
      by_cases hd : dist > 1
      · rw [if_pos hd] at h
        injection h with h
        injection h with hst houts
        exact houts.symm
      · rw [if_neg hd] at h
        injection h with h
        injection h with hst houts
        exact houts.symm
  | Unknown =>
      injection h with h
      injection h with hst houts
      exact houts.symm

/-- One completed handler step keeps the stroke buffer at length at most
two. -/
lemma buffer_inv_step (ctx : AppCtx) (st : AppState) (ev : WacomEvent)
    (st' : AppState) (outs : List Output)
    (hlen : st.wacom_history.length ≤ 2)
    (h : on_wacom_input ctx st ev = some (st', outs)) :
    st'.wacom_history.length ≤ 2 := by
  cases ev with
  | Draw pos press =>
      by_cases hc : contains_point CANVAS_REGION pos
      · rw [on_wacom_input_draw_in ctx st pos press hc] at h
        injection h with h
        injection h with hst houts
        rw [← hst]
        show (drain_strokes ctx _ _ _).1.length ≤ 2
        rw [drain_strokes_fst_length]
        exact min_le_right _ _
      · rw [draw_out_clears ctx st pos press st' outs (by simpa using hc) h]
        simp
  | InstrumentChange pen state =>
      cases pen <;> cases state <;> simp only [on_wacom_input] at h <;>
        first
          | (injection h with h; injection h with hst houts; rw [← hst];
              first | exact hlen | simp)
          | simp at h
  | Hover pos dist =>
      simp only [on_wacom_input] at h
      by_cases hd : dist > 1
      · rw [if_pos hd] at h
        injection h with h
        injection h with hst houts
        rw [← hst]
        simp
      · rw [if_neg hd] at h
        injection h with h
        injection h with hst houts
        rw [← hst]
        exact hlen
  | Unknown =>
      injection h with h
      injection h with hst houts
      rw [← hst]
      exact hlen

/-- The length bound propagates along every completed prefix of an event
sequence. -/
lemma statesAfter_inv (ctx : AppCtx) :
    ∀ (evs : List WacomEvent) (st : AppState), st.wacom_history.length ≤ 2 →
      ∀ s ∈ statesAfter ctx st evs, s.wacom_history.length ≤ 2 := by
  intro evs
  induction evs with
  | nil => intro st hst s hs; simp [statesAfter] at hs
  | cons ev evs ih =>
      intro st hst s hs
      simp only [statesAfter] at hs
      cases hres : on_wacom_input ctx st ev with
      | none => rw [hres] at hs; simp at hs
      | some res =>
          rw [hres] at hs
          have hlen' := buffer_inv_step ctx st ev res.1 res.2 hst (by rw [hres])
          rcases List.mem_cons.mp hs with rfl | hmem
          · exact hlen'
          · exact ih res.1 hlen' s hmem

/-- C5: for every in-canvas Draw sample the color/width resolution is
`Draw s ↦ (black, s)`, `Erase s ↦ (white, 3s)`, and rubber-side contact
overrides both, inverting the color and forcing the multiplier to the
constant 50, whatever the stored mode and brush size; moreover every render
emitted while processing a Draw sample is filled with the resolved color. -/
theorem c5_color_width_resolution :
    (∀ s : ℕ,
      resolve_col_mult (DrawMode.Draw s) false = (Color.black, s)
      ∧ resolve_col_mult (DrawMode.Erase s) false = (Color.white, s * 3)
      ∧ resolve_col_mult (DrawMode.Draw s) true = (Color.white, 50)
      ∧ resolve_col_mult (DrawMode.Erase s) true = (Color.black, 50))
    ∧ ∀ (ctx : AppCtx) (st : AppState) (pos : Point) (press : ℕ)
        (st' : AppState) (outs : List Output) (s c e : Point × ℚ) (n : ℕ)
        (col : Color) (r : Rect),
        on_wacom_input ctx st (WacomEvent.Draw pos press) = some (st', outs) →
        Output.render s c e n col r ∈ outs →
        col = (resolve_col_mult st.draw_mode st.wacom_rubber_side).1 := by
  constructor
  · intro s
    refine ⟨rfl, rfl, rfl, rfl⟩
  · intro ctx st pos press st' outs s c e n col r h hmem
    by_cases hc : contains_point CANVAS_REGION pos
    · rw [on_wacom_input_draw_in ctx st pos press hc] at h
      injection h with h
      injection h with hst houts
      subst houts
      exact drain_strokes_render_col ctx _ _ _ s c e n col r hmem
    · rw [on_wacom_input_draw_out ctx st pos press (by simpa using hc)] at h
      by_cases hu : st.unpress_observed
      · rw [if_pos hu] at h
        rcases hfind : ctx.find_active_region (round pos.2) (round pos.1) with _ | el <;>
            rw [hfind] at h <;> injection h with h <;> injection h with hst houts <;>
            subst houts <;> simp at hmem
      · rw [if_neg hu] at h
        injection h with h
        injection h with hst houts
        subst houts
        simp at hmem

/-- Witness for C5 at concrete inputs: rubber-side contact over `Erase 9`
resolves to `(black, 50)`, and the render emitted by a concrete in-canvas
draw carries the resolved color of its state. -/
theorem c5_color_width_resolution_witness :
    resolve_col_mult (DrawMode.Erase 9) true = (Color.black, 50)
    ∧ Color.black = (resolve_col_mult stTwo.draw_mode stTwo.wacom_rubber_side).1 := by
  refine ⟨(c5_color_width_resolution.1 9).2.2.2, ?_⟩
  exact c5_color_width_resolution.2 ctx0 stTwo ((20 : ℚ), (800 : ℚ)) 1500 _ _
    _ _ _ _ _ _ rfl (List.mem_cons_self _ _)

/-- C8: toggling the eraser swaps `Draw w ⇄ Erase w` preserving the width,
and toggling twice restores the whole state (in particular the original
mode and width) exactly. -/
theorem c8_toggle_eraser_involutive :
    ∀ st : AppState,
      (on_toggle_eraser (on_toggle_eraser st).1).1 = st
      ∧ (∀ w, st.draw_mode = DrawMode.Draw w →
          (on_toggle_eraser st).1.draw_mode = DrawMode.Erase w)
      ∧ (∀ w, st.draw_mode = DrawMode.Erase w →
          (on_toggle_eraser st).1.draw_mode = DrawMode.Draw w) := by
  intro st
  obtain ⟨mode, u, i, r, hist⟩ := st
  cases mode <;>
    refine ⟨rfl, ?_, ?_⟩ <;> intro w hw <;> simp_all [on_toggle_eraser]

/-- Witness for C8 at a concrete state: double toggle restores `Draw 7`,
and a single toggle yields `Erase 7`. -/
theorem c8_toggle_eraser_involutive_witness :
    (on_toggle_eraser (on_toggle_eraser { initialState with
        draw_mode := DrawMode.Draw 7 }).1).1
      = { initialState with draw_mode := DrawMode.Draw 7 }
    ∧ (on_toggle_eraser { initialState with
        draw_mode := DrawMode.Draw 7 }).1.draw_mode = DrawMode.Erase 7 := by
  have h := c8_toggle_eraser_involutive { initialState with draw_mode := DrawMode.Draw 7 }
  exact ⟨h.1, h.2.1 7 rfl⟩

/-- C9: `on_button_press` never changes the modelled state; an action is
dispatched only on a press while the stylus is out of range; a press with
the pen in range, a release, or an unknown GPIO event dispatch nothing. -/
theorem c9_button_press_filter :
    ∀ (st : AppState) (ev : GPIOEvent),
      (on_button_press st ev).1 = st
      ∧ ((on_button_press st ev).2 ≠ [] →
          (∃ b, ev = GPIOEvent.Press b) ∧ st.wacom_in_range = false)
      ∧ (∀ b, ev = GPIOEvent.Unpress b → (on_button_press st ev).2 = [])
      ∧ (st.wacom_in_range = true → (on_button_press st ev).2 = []) := by
  intro st ev
  cases ev with
  | Press b =>
      by_cases hr : st.wacom_in_range
      · refine ⟨by simp [on_button_press, hr], ?_, ?_, ?_⟩
        · intro hne; exact absurd (by simp [on_button_press, hr]) hne
        · intro b' hb'; cases hb'
        · intro _; simp [on_button_press, hr]
      · refine ⟨by simp [on_button_press, hr], ?_, ?_, ?_⟩
        · intro _; exact ⟨⟨b, rfl⟩, by simp [hr]⟩
        · intro b' hb'; cases hb'
        · intro h; exact absurd h (by simp [hr])
  | Unpress b =>
      refine ⟨rfl, ?_, ?_, ?_⟩
      · intro hne; exact absurd rfl hne
      · intro _ _; rfl
      · intro _; rfl
  | Unknown =>
      refine ⟨rfl, ?_, ?_, ?_⟩
      · intro hne; exact absurd rfl hne
      · intro _ h; cases h
      · intro _; rfl

/-- Witness for C9 at concrete inputs: with the pen in range a LEFT press
dispatches nothing and leaves the state unchanged. -/
theorem c9_button_press_filter_witness :
    (on_button_press { initialState with wacom_in_range := true }
        (GPIOEvent.Press PhysicalButton.LEFT)).1
      = { initialState with wacom_in_range := true }
    ∧ (on_button_press { initialState with wacom_in_range := true }
        (GPIOEvent.Press PhysicalButton.LEFT)).2 = [] := by
  have h := c9_button_press_filter { initialState with wacom_in_range := true }
    (GPIOEvent.Press PhysicalButton.LEFT)
  exact ⟨h.1, h.2.2.2 rfl⟩

/-- C6 counterexample: `WacomPen::Touch` is a pen code other than the two
recognized tool ends, yet `on_wacom_input` processes
`InstrumentChange { pen: Touch, state: false }` without aborting (it clears
the stroke buffer and returns normally). -/
theorem c6_counterexample :
    (WacomPen.Touch ≠ WacomPen.ToolPen ∧ WacomPen.Touch ≠ WacomPen.ToolRubber)
    ∧ on_wacom_input ctx0 initialState
        (WacomEvent.InstrumentChange WacomPen.Touch false)
      = some ({ initialState with wacom_history := [] }, []) := by
  exact ⟨⟨by decide, by decide⟩, rfl⟩

/-- C6 (amended): for every InstrumentChange event carrying a pen code
other than the two recognized tool ends (`ToolPen`, `ToolRubber`) and other
than the contact signal (`Touch`), processing hits the `unreachable!()` arm
and is fatal. -/
theorem c6_unknown_tool_fatal :
    ∀ (ctx : AppCtx) (st : AppState) (pen : WacomPen) (state : Bool),
      pen ≠ WacomPen.ToolPen → pen ≠ WacomPen.ToolRubber → pen ≠ WacomPen.Touch →
      on_wacom_input ctx st (WacomEvent.InstrumentChange pen state) = none := by
  intro ctx st pen state h1 h2 h3
  cases pen
  · exact absurd rfl h1
  · exact absurd rfl h2
  · exact absurd rfl h3
  · rfl
  · rfl

/-- Witness for C6 (amended) at the concrete pen code `Stylus`. -/
theorem c6_unknown_tool_fatal_witness :
    (WacomPen.Stylus ≠ WacomPen.ToolPen ∧ WacomPen.Stylus ≠ WacomPen.ToolRubber
      ∧ WacomPen.Stylus ≠ WacomPen.Touch)
    ∧ on_wacom_input ctx0 initialState
        (WacomEvent.InstrumentChange WacomPen.Stylus true) = none :=
  ⟨⟨by decide, by decide, by decide⟩,
    c6_unknown_tool_fatal ctx0 initialState WacomPen.Stylus true
      (by decide) (by decide) (by decide)⟩

/-- C10: the two entry points disagree on InstrumentChange.  For a pen code
that is neither tool end nor the contact signal, main.rs aborts while
basic_draw.rs leaves its state unchanged and emits nothing; for the contact
signal with `state = false`, main.rs clears the stroke buffer while
basic_draw.rs does nothing. -/
theorem c10_instrument_change_not_equivalent :
    (∀ (ctx : AppCtx) (st : AppState) (pen : WacomPen) (state : Bool),
        pen ≠ WacomPen.ToolPen → pen ≠ WacomPen.ToolRubber → pen ≠ WacomPen.Touch →
        on_wacom_input ctx st (WacomEvent.InstrumentChange pen state) = none)
    ∧ (∀ (ctx : AppCtx) (bst : BasicState) (pen : WacomPen) (state : Bool),
        pen ≠ WacomPen.ToolPen → pen ≠ WacomPen.ToolRubber →
        basic_on_event ctx bst (WacomEvent.InstrumentChange pen state) = (bst, []))
    ∧ (∀ (ctx : AppCtx) (st : AppState),
        on_wacom_input ctx st (WacomEvent.InstrumentChange WacomPen.Touch false)
          = some ({ st with wacom_history := [] }, []))
    ∧ (∀ (ctx : AppCtx) (bst : BasicState),
        basic_on_event ctx bst (WacomEvent.InstrumentChange WacomPen.Touch false)
          = (bst, [])) := by
  refine ⟨?_, ?_, ?_, ?_⟩
  · intro ctx st pen state h1 h2 h3
    cases pen
    · exact absurd rfl h1
    · exact absurd rfl h2
    · exact absurd rfl h3
    · rfl
    · rfl
  · intro ctx bst pen state h1 h2
    cases pen
    · exact absurd rfl h1
    · exact absurd rfl h2
    · rfl
    · rfl
    · rfl
  · intro ctx st
    rfl
  · intro ctx bst
    rfl

/-- Witness for C10 at concrete inputs: `Stylus`, and `Touch` with
`state = false`, evaluated in both entry points. -/
theorem c10_instrument_change_not_equivalent_witness :
    on_wacom_input ctx0 initialState
        (WacomEvent.InstrumentChange WacomPen.Stylus true) = none
    ∧ basic_on_event ctx0 basicInitialState
        (WacomEvent.InstrumentChange WacomPen.Stylus true) = (basicInitialState, [])
    ∧ on_wacom_input ctx0 stHist1 (WacomEvent.InstrumentChange WacomPen.Touch false)
      = some ({ stHist1 with wacom_history := [] }, [])
    ∧ basic_on_event ctx0 basicInitialState
        (WacomEvent.InstrumentChange WacomPen.Touch false) = (basicInitialState, []) :=
  ⟨c10_instrument_change_not_equivalent.1 ctx0 initialState WacomPen.Stylus true
      (by decide) (by decide) (by decide),
    c10_instrument_change_not_equivalent.2.1 ctx0 basicInitialState WacomPen.Stylus true
      (by decide) (by decide),
    c10_instrument_change_not_equivalent.2.2.1 ctx0 stHist1,
    c10_instrument_change_not_equivalent.2.2.2 ctx0 basicInitialState⟩

/-- C4: no input event sequence ever renders an out-of-canvas Draw sample:
whenever `on_wacom_input` processes a Draw whose position lies outside
`CANVAS_REGION` (from any state whatsoever, hence any reachable one), the
produced outputs contain no tapered-curve render call. -/
theorem c4_no_render_out_of_canvas :
    ∀ (ctx : AppCtx) (st : AppState) (pos : Point) (press : ℕ)
      (st' : AppState) (outs : List Output),
      contains_point CANVAS_REGION pos = false →
      on_wacom_input ctx st (WacomEvent.Draw pos press) = some (st', outs) →
      hasRender outs = false := by
  intro ctx st pos press st' outs hc h
  rw [on_wacom_input_draw_out ctx st pos press hc] at h
  by_cases hu : st.unpress_observed
  · rw [if_pos hu] at h
    rcases hfind : ctx.find_active_region (round pos.2) (round pos.1) with _ | el <;>
        rw [hfind] at h <;> injection h with h <;> injection h with hst houts <;>
        subst houts <;> rfl
  · rw [if_neg hu] at h
    injection h with h
    injection h with hst houts
    subst houts
    rfl

/-- Witness for C4 at a concrete out-of-canvas position. -/
theorem c4_no_render_out_of_canvas_witness :
    contains_point CANVAS_REGION ((10 : ℚ), (10 : ℚ)) = false
    ∧ hasRender [] = false := by
  refine ⟨by decide, ?_⟩
  exact c4_no_render_out_of_canvas ctx0 initialState ((10 : ℚ), (10 : ℚ)) 100
    { initialState with wacom_history := [] } [] (by decide) rfl

/-- On a cleared activation flag, an out-of-canvas Draw invokes no element
handler at all. -/
lemma no_activation_when_flag_clear (ctx : AppCtx) (st : AppState) (pos : Point)
    (press : ℕ) (st'' : AppState) (outs : List Output)
    (hu : st.unpress_observed = false)
    (hc : contains_point CANVAS_REGION pos = false)
    (h : on_wacom_input ctx st (WacomEvent.Draw pos press) = some (st'', outs)) :
    outs = [] := by
  rw [on_wacom_input_draw_out ctx st pos press hc, if_neg (by simp [hu])] at h
  injection h with h
  injection h with hst houts
  exact houts.symm

/-- Clearing the flag on a state whose flag is already clear is the
identity on the flag field. -/
lemma clear_flag_eq (st : AppState) (hu : st.unpress_observed = false) :
    ({ st with wacom_history := [], unpress_observed := false } : AppState)
      = { st with wacom_history := [] } := by
  obtain ⟨m, u, i, r, hist⟩ := st
  simp only at hu
  subst hu
  rfl

/-- C3: an out-of-canvas Draw clears the stroke buffer and consumes the
`pendingActivation` flag; when the flag was set, the element occupying the
position (if any) is activated exactly once, and with no element the event
has no further effect; when the flag was clear nothing is invoked; and an
immediately following out-of-canvas Draw (no intervening Hover) activates
nothing. -/
theorem c3_out_of_canvas_tap :
    ∀ (ctx : AppCtx) (st : AppState) (pos : Point) (press : ℕ),
      contains_point CANVAS_REGION pos = false →
      ∃ (st' : AppState) (outs : List Output),
        on_wacom_input ctx st (WacomEvent.Draw pos press) = some (st', outs)
        ∧ st' = { st with wacom_history := [], unpress_observed := false }
        ∧ (st.unpress_observed = true →
            (∀ element, ctx.find_active_region (round pos.2) (round pos.1) = some element →
              outs = [Output.activate element])
            ∧ (ctx.find_active_region (round pos.2) (round pos.1) = none → outs = []))
        ∧ (st.unpress_observed = false → outs = [])
        ∧ (∀ (pos2 : Point) (press2 : ℕ) (st'' : AppState) (outs2 : List Output),
            contains_point CANVAS_REGION pos2 = false →
            on_wacom_input ctx st' (WacomEvent.Draw pos2 press2) = some (st'', outs2) →
            ∀ element, Output.activate element ∉ outs2) := by
  intro ctx st pos press hc
  have hsecond : ∀ (st' : AppState), st'.unpress_observed = false →
      ∀ (pos2 : Point) (press2 : ℕ) (st'' : AppState) (outs2 : List Output),
        contains_point CANVAS_REGION pos2 = false →
        on_wacom_input ctx st' (WacomEvent.Draw pos2 press2) = some (st'', outs2) →
        ∀ element, Output.activate element ∉ outs2 := by
    intro st' hu' pos2 press2 st'' outs2 hc2 h2 element
    rw [no_activation_when_flag_clear ctx st' pos2 press2 st'' outs2 hu' hc2 h2]
    simp
  by_cases hu : st.unpress_observed
  · rcases hfind : ctx.find_active_region (round pos.2) (round pos.1) with _ | el
    · refine ⟨{ st with wacom_history := [], unpress_observed := false }, [],
        ?_, rfl, ?_, ?_, hsecond _ rfl⟩
      · rw [on_wacom_input_draw_out ctx st pos press hc, if_pos hu, hfind]
      · intro _
        exact ⟨fun element he => absurd he (by simp), fun _ => rfl⟩
      · intro h
        exact absurd hu (by simp [h])
    · refine ⟨{ st with wacom_history := [], unpress_observed := false },
        [Output.activate el], ?_, rfl, ?_, ?_, hsecond _ rfl⟩
      · rw [on_wacom_input_draw_out ctx st pos press hc, if_pos hu, hfind]
      · intro _
        refine ⟨fun element he => ?_, fun hn => absurd hn (by simp)⟩
        have hel : el = element := by injection he
        rw [hel]
      · intro h
        exact absurd hu (by simp [h])
  · have hu' : st.unpress_observed = false := by simpa using hu
    refine ⟨{ st with wacom_history := [], unpress_observed := false }, [],
      ?_, rfl, ?_, fun _ => rfl, hsecond _ rfl⟩
    · rw [on_wacom_input_draw_out ctx st pos press hc, if_neg (by simp [hu']),
        clear_flag_eq st hu']
    · intro h
      exact absurd h (by simp [hu'])

/-- Witness for C3 at concrete inputs: a pending activation with element 7
under the pen activates exactly element 7 and clears buffer and flag. -/
theorem c3_out_of_canvas_tap_witness :
    contains_point CANVAS_REGION ((10 : ℚ), (10 : ℚ)) = false
    ∧ on_wacom_input ctx7 stPending (WacomEvent.Draw ((10 : ℚ), (10 : ℚ)) 100)
      = some ({ stPending with wacom_history := [], unpress_observed := false },
        [Output.activate 7]) := by
  refine ⟨by decide, ?_⟩
  obtain ⟨st', outs, heq, hst, hflag, -, -⟩ :=
    c3_out_of_canvas_tap ctx7 stPending ((10 : ℚ), (10 : ℚ)) 100 (by decide)
  have houts : outs = [Output.activate 7] := (hflag rfl).1 7 rfl
  subst hst houts
  exact heq

/-- C2: along every sequence of wacom events (in- and out-of-canvas Draw
samples, Hover, Touch and unknown events), the stroke buffer length after
each completed handler invocation stays in `{0, 1, 2}`; and a render fires
only while processing a Draw event whose appended sample makes the window
reach exactly three entries. -/
theorem c2_buffer_length_invariant :
    (∀ (ctx : AppCtx) (evs : List WacomEvent),
      ∀ st ∈ statesAfter ctx initialState evs, st.wacom_history.length ≤ 2)
    ∧ (∀ (ctx : AppCtx) (st : AppState) (ev : WacomEvent) (st' : AppState)
        (outs : List Output),
        st.wacom_history.length ≤ 2 →
        on_wacom_input ctx st ev = some (st', outs) →
        hasRender outs = true →
        ∃ (pos : Point) (press : ℕ), ev = WacomEvent.Draw pos press
          ∧ st.wacom_history.length = 2
          ∧ (st.wacom_history ++ [(pos, (press : ℤ))]).length = 3) := by
  constructor
  · intro ctx evs st hst
    exact statesAfter_inv ctx evs initialState (by simp [initialState]) st hst
  · intro ctx st ev st' outs hlen h hr
    cases ev with
    | Draw pos press =>
        by_cases hc : contains_point CANVAS_REGION pos
        · rw [on_wacom_input_draw_in ctx st pos press hc] at h
          injection h with h
          injection h with hst houts
          subst houts
          have h3 := drain_strokes_hasRender ctx _ _ _ hr
          have hlen3 : st.wacom_history.length = 2 := by
            have : (st.wacom_history ++ [(pos, (press : ℤ))]).length
                = st.wacom_history.length + 1 := by simp
            omega
          exact ⟨pos, press, rfl, hlen3, by simp [hlen3]⟩
        · rw [draw_out_no_render ctx st pos press st' outs (by simpa using hc) h] at hr
          cases hr
    | InstrumentChange pen state =>
        rw [non_draw_outs_nil ctx st _ st' outs h (by intro _ _ hne; cases hne)] at hr
        cases hr
    | Hover pos dist =>
        rw [non_draw_outs_nil ctx st _ st' outs h (by intro _ _ hne; cases hne)] at hr
        cases hr
    | Unknown =>
        rw [non_draw_outs_nil ctx st _ st' outs h (by intro _ _ hne; cases hne)] at hr
        cases hr

/-- Witness for C2 at concrete inputs: from a window of two samples, a
third in-canvas sample renders, and the buffer had exactly two entries. -/
theorem c2_buffer_length_invariant_witness :
    stTwo.wacom_history.length ≤ 2
    ∧ ∃ (pos : Point) (press : ℕ),
        WacomEvent.Draw ((20 : ℚ), (800 : ℚ)) 1500 = WacomEvent.Draw pos press
        ∧ stTwo.wacom_history.length = 2
        ∧ (stTwo.wacom_history ++ [(pos, (press : ℤ))]).length = 3 := by
  refine ⟨by decide, ?_⟩
  exact c2_buffer_length_invariant.2 ctx0 stTwo
    (WacomEvent.Draw ((20 : ℚ), (800 : ℚ)) 1500) _ _ (by decide) rfl (by decide)

/-- The empty output list satisfies the refresh discipline. -/
lemma rfr_nil : refresh_follows_render [] := by
  constructor
  · intro i s c e n col rect h
    simp at h
  · intro j rect m w t d q wait h
    simp at h

/-- A single element activation satisfies the refresh discipline. -/
lemma rfr_activate (el : ℕ) : refresh_follows_render [Output.activate el] := by
  constructor
  · intro i s c e n col rect h
    rcases i with _ | i <;> simp at h
  · intro j rect m w t d q wait h
    rcases j with _ | j <;> simp at h

/-- Prepending one render/refresh pair preserves the refresh discipline. -/
lemma rfr_cons_pair (s c e : Point × ℚ) (n : ℕ) (col : Color) (rect : Rect)
    (outs : List Output) (h : refresh_follows_render outs) :
    refresh_follows_render (Output.render s c e n col rect ::
      Output.refresh rect RefreshMode.Async WaveformMode.DU
        DisplayTemp.RemarkableDraw DitherMode.Exp1 QuantBit.drawingQuantBit false
      :: outs) := by
  constructor
  · intro i s' c' e' n' col' rect' hi
    match i with
    | 0 =>
        simp only [List.getElem?_cons_zero, Option.some.injEq] at hi
        injection hi with h1 h2 h3 h4 h5 h6
        subst h6
        simp
    | 1 => simp at hi
    | (i + 2) =>
        simp only [List.getElem?_cons_succ] at hi ⊢
        exact h.1 i s' c' e' n' col' rect' hi
  · intro j rect' m w t d q wait hj
    match j with
    | 0 => simp at hj
    | 1 =>
        simp only [List.getElem?_cons_succ, List.getElem?_cons_zero,
          Option.some.injEq] at hj
        injection hj with h1 h2 h3 h4 h5 h6 h7
        subst h1 h2 h3 h7
        exact ⟨rfl, rfl, rfl, 0, s, c, e, n, col, rfl, rfl⟩
    | (j + 2) =>
        simp only [List.getElem?_cons_succ] at hj
        obtain ⟨hm, hw, hwait, i, s', c', e', n', col', hji, hi⟩ :=
          h.2 j rect' m w t d q wait hj
        refine ⟨hm, hw, hwait, i + 2, s', c', e', n', col', by omega, ?_⟩
        simpa using hi

/-- The whole drain-loop output satisfies the refresh discipline. -/
lemma drain_strokes_rfr (ctx : AppCtx) (col : Color) (mult : ℕ) :
    ∀ stack : List (Point × ℤ),
      refresh_follows_render (drain_strokes ctx col mult stack).2 := by
  intro stack
  induction stack with
  | nil => exact rfr_nil
  | cons p0 tail ih =>
      match tail with
      | [] => exact rfr_nil
      | [_] => exact rfr_nil
      | p1 :: p2 :: rest =>
          show refresh_follows_render
            (render_segment ctx col mult p0 p1 p2
              ++ (drain_strokes ctx col mult (p1 :: p2 :: rest)).2)
          simp only [render_segment, List.cons_append, List.nil_append]
          exact rfr_cons_pair _ _ _ _ _ _ _ ih

/-- C7: every completed handler invocation obeys the refresh discipline:
each bounding rectangle returned by a tapered-curve render call is followed
immediately by exactly one partial refresh scoped to that rectangle, in
asynchronous mode with the DU waveform profile and with
`wait_completion = false`, and no other refresh is ever issued. -/
theorem c7_refresh_dispatch :
    ∀ (ctx : AppCtx) (st : AppState) (ev : WacomEvent) (st' : AppState)
      (outs : List Output),
      on_wacom_input ctx st ev = some (st', outs) →
      refresh_follows_render outs := by
  intro ctx st ev st' outs h
  cases ev with
  | Draw pos press =>
      by_cases hc : contains_point CANVAS_REGION pos
      · rw [on_wacom_input_draw_in ctx st pos press hc] at h
        injection h with h
        injection h with hst houts
        subst houts
        exact drain_strokes_rfr ctx _ _ _
      · rw [on_wacom_input_draw_out ctx st pos press (by simpa using hc)] at h
        by_cases hu : st.unpress_observed
        · rw [if_pos hu] at h
          rcases hfind : ctx.find_active_region (round pos.2) (round pos.1) with _ | el <;>
              rw [hfind] at h <;> injection h with h <;> injection h with hst houts <;>
              subst houts
          · exact rfr_nil
          · exact rfr_activate el
        · rw [if_neg hu] at h
          injection h with h
          injection h with hst houts
          subst houts
          exact rfr_nil
  | InstrumentChange pen state =>
      rw [non_draw_outs_nil ctx st _ st' outs h (by intro _ _ hne; cases hne)]
      exact rfr_nil
  | Hover pos dist =>
      rw [non_draw_outs_nil ctx st _ st' outs h (by intro _ _ hne; cases hne)]
      exact rfr_nil
  | Unknown =>
      rw [non_draw_outs_nil ctx st _ st' outs h (by intro _ _ hne; cases hne)]
      exact rfr_nil

/-- Witness for C7 at concrete inputs: the output of a rendering step from
a two-sample window satisfies the refresh discipline. -/
theorem c7_refresh_dispatch_witness :
    refresh_follows_render
      [Output.render (((15 : ℚ), (800 : ℚ)), 625 / 512)
          (((10 : ℚ), (800 : ℚ)), 125 / 128)
          (((5 : ℚ), (800 : ℚ)), 375 / 512) 10 Color.black rect0,
        Output.refresh rect0 RefreshMode.Async WaveformMode.DU
          DisplayTemp.RemarkableDraw DitherMode.Exp1 QuantBit.drawingQuantBit false] := by
  have h := c7_refresh_dispatch ctx0 stTwo
    (WacomEvent.Draw ((20 : ℚ), (800 : ℚ)) 1500) _ _ rfl
  have heq : (drain_strokes ctx0
      (resolve_col_mult stTwo.draw_mode stTwo.wacom_rubber_side).1
      (resolve_col_mult stTwo.draw_mode stTwo.wacom_rubber_side).2
      (stTwo.wacom_history ++ [(((20 : ℚ), (800 : ℚ)), ((1500 : ℕ) : ℤ))])).2
      = [Output.render (((15 : ℚ), (800 : ℚ)), 625 / 512)
          (((10 : ℚ), (800 : ℚ)), 125 / 128)
          (((5 : ℚ), (800 : ℚ)), 375 / 512) 10 Color.black rect0,
        Output.refresh rect0 RefreshMode.Async WaveformMode.DU
          DisplayTemp.RemarkableDraw DitherMode.Exp1 QuantBit.drawingQuantBit false] := by
    norm_num [stTwo, initialState, resolve_col_mult, drain_strokes, render_segment,
      midpoint, radius, ctx0, rect0]
  rw [heq] at h
  exact h

/-- C1 counterexample: for the concrete window `S0 = (0,800)`,
`S1 = (10,800)`, `S2 = (20,800)` with pressures `[500, 1000, 1500]` and
multiplier 4, the rendered segment's start anchor is
`(15,800) = midpoint(S1,S2)` — not `midpoint(S0,S1) = (5,800)` as the claim
pairs it — and its end anchor `(5,800)` is not `midpoint(S1,S2)`; the three
widths do match the claimed formulas (`625/256`, `125/64`, `375/256`). -/
theorem c1_counterexample :
    on_wacom_input ctx0 stTwo4 (WacomEvent.Draw ((20 : ℚ), (800 : ℚ)) 1500)
      = some ({ stTwo4 with
            wacom_history := [(((10 : ℚ), (800 : ℚ)), 1000), (((20 : ℚ), (800 : ℚ)), 1500)] },
          [Output.render (((15 : ℚ), (800 : ℚ)), 625 / 256)
              (((10 : ℚ), (800 : ℚ)), 125 / 64)
              (((5 : ℚ), (800 : ℚ)), 375 / 256) 10 Color.black rect0,
            Output.refresh rect0 RefreshMode.Async WaveformMode.DU
              DisplayTemp.RemarkableDraw DitherMode.Exp1 QuantBit.drawingQuantBit false])
    ∧ ((15 : ℚ), (800 : ℚ)) ≠ midpoint ((0 : ℚ), (800 : ℚ)) ((10 : ℚ), (800 : ℚ))
    ∧ ((5 : ℚ), (800 : ℚ)) ≠ midpoint ((10 : ℚ), (800 : ℚ)) ((20 : ℚ), (800 : ℚ)) := by
  refine ⟨?_, ?_, ?_⟩
  · rw [on_wacom_input_draw_in ctx0 stTwo4 ((20 : ℚ), (800 : ℚ)) 1500 (by decide)]
    norm_num [stTwo4, initialState, resolve_col_mult, drain_strokes, render_segment,
      midpoint, radius, ctx0, rect0]
  · intro h
    rw [Prod.ext_iff] at h
    norm_num [midpoint] at h
  · intro h
    rw [Prod.ext_iff] at h
    norm_num [midpoint] at h

/-- C1 (amended): while the stroke window holds `[s0, s1]`, an in-canvas
Draw sample `s2 = (pos, press)` renders exactly one quadratic segment with
start anchor `midpoint(S1, S2)` and start width `r2 + r1`, control anchor
`S1` with width `2·r1`, and end anchor `midpoint(S0, S1)` with end width
`r1 + r0`, radii `r_i = (mult · pressure_i / 2048) / 2` under the resolved
multiplier, and evicts the oldest sample.  (Relative to the claim as
stated, the two anchor formulas are interchanged: the start anchor pairs
with the newer samples, the end anchor with the older ones.) -/
theorem c1_segment_formulas :
    ∀ (ctx : AppCtx) (st : AppState) (s0 s1 : Point × ℤ) (pos : Point)
      (press : ℕ) (col : Color) (mult : ℕ),
      st.wacom_history = [s0, s1] →
      contains_point CANVAS_REGION pos = true →
      resolve_col_mult st.draw_mode st.wacom_rubber_side = (col, mult) →
      on_wacom_input ctx st (WacomEvent.Draw pos press) =
        some ({ st with wacom_history := [s1, (pos, (press : ℤ))] },
          [Output.render
              (midpoint pos s1.1, radius mult (press : ℤ) + radius mult s1.2)
              (s1.1, radius mult s1.2 * 2)
              (midpoint s1.1 s0.1, radius mult s1.2 + radius mult s0.2)
              10 col
              (ctx.draw_dynamic_bezier
                (midpoint pos s1.1, radius mult (press : ℤ) + radius mult s1.2)
                (s1.1, radius mult s1.2 * 2)
                (midpoint s1.1 s0.1, radius mult s1.2 + radius mult s0.2) 10 col),
            Output.refresh
              (ctx.draw_dynamic_bezier
                (midpoint pos s1.1, radius mult (press : ℤ) + radius mult s1.2)
                (s1.1, radius mult s1.2 * 2)
                (midpoint s1.1 s0.1, radius mult s1.2 + radius mult s0.2) 10 col)
              RefreshMode.Async WaveformMode.DU DisplayTemp.RemarkableDraw
              DitherMode.Exp1 QuantBit.drawingQuantBit false]) := by
  intro ctx st s0 s1 pos press col mult hhist hc hres
  rw [on_wacom_input_draw_in ctx st pos press hc, hhist, hres]
  simp [drain_strokes, render_segment]

/-- Witness for C1 (amended) at the specification's concrete scenario:
pressures `[500, 1000, 1500]`, multiplier 4; the three widths evaluate to
`625/256`, `125/64` and `375/256` exactly. -/
theorem c1_segment_formulas_witness :
    on_wacom_input ctx0 stTwo4 (WacomEvent.Draw ((20 : ℚ), (800 : ℚ)) 1500)
      = some ({ stTwo4 with
            wacom_history := [(((10 : ℚ), (800 : ℚ)), 1000),
              (((20 : ℚ), (800 : ℚ)), ((1500 : ℕ) : ℤ))] },
          [Output.render
              (midpoint ((20 : ℚ), (800 : ℚ)) ((10 : ℚ), (800 : ℚ)),
                radius 4 ((1500 : ℕ) : ℤ) + radius 4 1000)
              (((10 : ℚ), (800 : ℚ)), radius 4 1000 * 2)
              (midpoint ((10 : ℚ), (800 : ℚ)) ((0 : ℚ), (800 : ℚ)),
                radius 4 1000 + radius 4 500)
              10 Color.black
              (ctx0.draw_dynamic_bezier
                (midpoint ((20 : ℚ), (800 : ℚ)) ((10 : ℚ), (800 : ℚ)),
                  radius 4 ((1500 : ℕ) : ℤ) + radius 4 1000)
                (((10 : ℚ), (800 : ℚ)), radius 4 1000 * 2)
                (midpoint ((10 : ℚ), (800 : ℚ)) ((0 : ℚ), (800 : ℚ)),
                  radius 4 1000 + radius 4 500) 10 Color.black),
            Output.refresh
              (ctx0.draw_dynamic_bezier
                (midpoint ((20 : ℚ), (800 : ℚ)) ((10 : ℚ), (800 : ℚ)),
                  radius 4 ((1500 : ℕ) : ℤ) + radius 4 1000)
                (((10 : ℚ), (800 : ℚ)), radius 4 1000 * 2)
                (midpoint ((10 : ℚ), (800 : ℚ)) ((0 : ℚ), (800 : ℚ)),
                  radius 4 1000 + radius 4 500) 10 Color.black)
              RefreshMode.Async WaveformMode.DU DisplayTemp.RemarkableDraw
              DitherMode.Exp1 QuantBit.drawingQuantBit false])
    ∧ radius 4 ((1500 : ℕ) : ℤ) + radius 4 1000 = 625 / 256
    ∧ radius 4 1000 * 2 = 125 / 64
    ∧ radius 4 1000 + radius 4 500 = 375 / 256 := by
  refine ⟨?_, by norm_num [radius], by norm_num [radius], by norm_num [radius]⟩
  exact c1_segment_formulas ctx0 stTwo4 (((0 : ℚ), (800 : ℚ)), 500)
    (((10 : ℚ), (800 : ℚ)), 1000) ((20 : ℚ), (800 : ℚ)) 1500 Color.black 4
    rfl (by decide) rfl

end Flashcards
